import Mathlib

/-!
# Verification of the jobSync.ai crawling and reconciliation engine

Shallow embedding of `backend/app/services/crawler/` (the orchestrator
`crawl_source` / `crawl_all_sources` in `__init__.py` and the four source
adapters) together with proofs about the embedded definitions.

Conventions of the embedding:
* Python dicts produced by the adapters become the `Job` structure; the
  persisted `jobs` table rows become `Row`; `crawler_runs` rows become
  `RunRow`; `job_sources` rows become `SourceRow`.
* The relational store is a `DB` value threaded explicitly.
* Timestamps are integers (seconds); `NOW()` is passed in as a parameter.
* Store-write failures of the per-listing loop are modelled by a predicate
  `fails : Nat → Bool` on the listing's index in the batch (the code
  catches any exception of one loop iteration and continues).
-/

namespace JobSync

/-- Python `\s` / `str.strip()` whitespace characters (common ASCII set). -/
def isPySpace (c : Char) : Bool :=
  c == ' ' || c == '\t' || c == '\n' || c == '\r' || c == '\x0b' || c == '\x0c'

/-- Python `str.strip()`: drop leading and trailing whitespace. -/
def pyStrip (s : String) : String :=
  ⟨((s.data.dropWhile isPySpace).reverse.dropWhile isPySpace).reverse⟩

/-- Python `needle in hay` on strings: `needle` occurs as a contiguous
substring of `hay` (the empty needle always occurs). -/
def listContainsSub (needle : List Char) : List Char → Bool
  | [] => needle.isEmpty
  | c :: t => needle.isPrefixOf (c :: t) || listContainsSub needle t

/-- `strContains hay needle` is Python `needle in hay`. -/
def strContains (hay needle : String) : Bool :=
  listContainsSub needle.data hay.data

/-- Python `str.lower()` (ASCII letters; the keywords and demo texts used
here are ASCII). -/
def pyLower (s : String) : String := ⟨s.data.map Char.toLower⟩

/-- A normalized listing as produced by the adapters: the Python job dict. -/
structure Job where
  external_id : Option String
  title : String
  company : String
  location : String
  department : Option String
  description : String
  job_type : String
  url : String
  posting_date : Option String
  deriving Repr, DecidableEq

/-! ## `_parse_iso_datetime_maybe` (crawler/__init__.py lines 22–45)

The Python helper best-effort parses ISO-ish datetime strings
(`YYYY-MM-DD[<sep>HH:MM[:SS]][±HH:MM]`, with a trailing `Z` first rewritten
to `+00:00`), returning a timezone-aware datetime or `None`.  We embed the
result as seconds since the Unix epoch (UTC); a timezone-naive parse is
interpreted as UTC exactly as the code's `replace(tzinfo=timezone.utc)`. -/

/-- Days from civil date to days since 1970-01-01 (proleptic Gregorian). -/
def daysFromCivil (y m d : Int) : Int :=
  let y' : Int := if m ≤ 2 then y - 1 else y
  let era : Int := (if 0 ≤ y' then y' else y' - 399) / 400
  let yoe : Int := y' - era * 400
  let mp : Int := (m + 9) % 12
  let doy : Int := (153 * mp + 2) / 5 + d - 1
  let doe : Int := yoe * 365 + yoe / 4 - yoe / 100 + doy
  era * 146097 + doe - 719468

/-- Is `y` a Gregorian leap year? -/
def isLeapYear (y : Int) : Bool :=
  (y % 4 == 0 && y % 100 != 0) || y % 400 == 0

/-- Number of days in month `m` of year `y` (1-based month). -/
def daysInMonth (y m : Int) : Int :=
  if m == 2 then (if isLeapYear y then 29 else 28)
  else if m == 4 || m == 6 || m == 9 || m == 11 then 30
  else 31

/-- Read exactly `n` decimal digits from the front of `cs`; return their
value and the rest. -/
def readDigits : Nat → List Char → Option (Nat × List Char)
  | 0, cs => some (0, cs)
  | _ + 1, [] => none
  | n + 1, c :: cs =>
    if c.isDigit then
      match readDigits n cs with
      | some (v, rest) => some ((c.toNat - '0'.toNat) * 10 ^ n + v, rest)
      | none => none
    else none

/-- Parse a `±HH:MM` UTC offset suffix; returns the offset in seconds. -/
def parseOffset (cs : List Char) : Option Int :=
  match cs with
  | sign :: rest =>
    if sign == '+' || sign == '-' then
      match readDigits 2 rest with
      | some (oh, ':' :: rest2) =>
        match readDigits 2 rest2 with
        | some (om, []) =>
          if oh < 24 && om < 60 then
            let total : Int := (oh : Int) * 3600 + (om : Int) * 60
            some (if sign == '-' then -total else total)
          else none
        | _ => none
      | _ => none
    else none
  | [] => none

/-- Parse `HH:MM[:SS]` followed by an optional offset; returns
(seconds into the day, offset in seconds). -/
def parseTimePart (cs : List Char) : Option (Int × Int) :=
  match readDigits 2 cs with
  | some (hh, ':' :: r1) =>
    (match readDigits 2 r1 with
     | some (mm, r2) =>
       if hh < 24 && mm < 60 then
         let secs : Int := (hh : Int) * 3600 + (mm : Int) * 60
         match r2 with
         | [] => some (secs, 0)
         | ':' :: r3 =>
           (match readDigits 2 r3 with
            | some (ss, r4) =>
              if ss < 60 then
                -- optional fractional part `.fff`/`.ffffff`; the fraction is
                -- dropped (the embedding is at second granularity)
                let r5 :=
                  match r4 with
                  | '.' :: fr =>
                    (match readDigits 6 fr with
                     | some (_, rest) => some rest
                     | none =>
                       match readDigits 3 fr with
                       | some (_, rest) => some rest
                       | none => none)
                  | _ => some r4
                match r5 with
                | none => none
                | some r6 =>
                  match r6 with
                  | [] => some (secs + (ss : Int), 0)
                  | _ =>
                    match parseOffset r6 with
                    | some off => some (secs + (ss : Int), off)
                    | none => none
              else none
            | none => none)
         | _ =>
           match parseOffset r2 with
           | some off => some (secs, off)
           | none => none
       else none
     | none => none)
  | _ => none

/-- `datetime.fromisoformat` on the supported subset: `YYYY-MM-DD`, optionally
followed by a single separator character and `HH:MM[:SS][±HH:MM]`.  Returns
seconds since the epoch, with a naive datetime taken as UTC (mirroring
`replace(tzinfo=timezone.utc)` in the code). -/
def fromIsoformat (cs : List Char) : Option Int :=
  match readDigits 4 cs with
  | some (y, '-' :: r1) =>
    (match readDigits 2 r1 with
     | some (mo, '-' :: r2) =>
       (match readDigits 2 r2 with
        | some (d, r3) =>
          if 1 ≤ mo && mo ≤ 12 && 1 ≤ d && (d : Int) ≤ daysInMonth y mo then
            let dayS : Int := daysFromCivil y mo d * 86400
            match r3 with
            | [] => some dayS
            | _ :: r4 =>
              match parseTimePart r4 with
              | some (t, off) => some (dayS + t - off)
              | none => none
          else none
        | none => none)
     | _ => none)
  | _ => none

/-- `_parse_iso_datetime_maybe` restricted to the string-or-None values the
adapters produce: `None → None`; strip; empty → None; a trailing `Z` becomes
`+00:00`; then `fromisoformat`, any failure giving `None`. -/
def parseIsoDatetimeMaybe (value : Option String) : Option Int :=
  match value with
  | none => none
  | some v =>
    let s := pyStrip v
    if s.isEmpty then none
    else
      let cs := s.data
      let cs := if cs.getLast? == some 'Z'
                then cs.dropLast ++ ['+', '0', '0', ':', '0', '0'] else cs
      fromIsoformat cs

/-! ## Age filter (crawler/__init__.py lines 96–106) -/

/-- The age filter of `crawl_source`: with `max_post_age_hours = some h`,
keep a job when its parsed posting date is `None` or at/after
`now − h` hours; with no cutoff keep everything. -/
def filterByAge (maxPostAgeHours : Option Nat) (now : Int) (jobs : List Job) :
    List Job :=
  match maxPostAgeHours with
  | none => jobs
  | some h =>
    let cutoff : Int := now - (h : Int) * 3600
    jobs.filter fun job =>
      match parseIsoDatetimeMaybe job.posting_date with
      | none => true
      | some dt => cutoff ≤ dt

/-! ## Department filter (crawler/__init__.py lines 108–140)

The code compiles, per target keyword, the regex
`\b<keyword.lower() with ' ' replaced by \s+>\b` (case-insensitive), plus —
whenever the lowered keyword contains `"engineering"` — the broadened
pattern `\b(software|backend|frontend|full.?stack|devops|infrastructure|sre)\s+engineer`,
and keeps a job when some pattern matches the lowered title or description.
We embed exactly these two pattern shapes as executable matchers; a space in
a keyword body stands for `\s+`. -/

/-- Python regex `\w` (ASCII fragment): letters, digits, underscore. -/
def isWordChar (c : Char) : Bool := c.isAlphanum || c == '_'

/-- Word-class of the first character (`false` at end of string). -/
def headIsWord : List Char → Bool
  | [] => false
  | c :: _ => isWordChar c

/-- Fuelled matcher for a keyword pattern body (a literal `' '` stands for
`\s+`) against a prefix of `cs` followed by a `\b`; `prev` says whether the
character just before `cs` is a word character.  Every recursive call
consumes one character of `cs` and one unit of fuel, so fuel
`cs.length + 1` never runs out. -/
def matchKwFromF : Nat → List Char → Bool → List Char → Bool
  | 0, _, _, _ => false
  | _ + 1, [], prev, cs => prev != headIsWord cs
  | _ + 1, _ :: _, _, [] => false
  | fuel + 1, k :: kw, _, c :: cs =>
    if k == ' ' then
      isPySpace c &&
        (matchKwFromF fuel kw (isWordChar c) cs ||
          matchKwFromF fuel (' ' :: kw) (isWordChar c) cs)
    else
      k == c && matchKwFromF fuel kw (isWordChar c) cs

/-- Match the body of a keyword pattern against a prefix of `cs` followed
by a `\b`. -/
def matchKwFrom (kw : List Char) (prev : Bool) (cs : List Char) : Bool :=
  matchKwFromF (cs.length + 1) kw prev cs

/-- `re.search` of `\b<body>\b`: try every start position. -/
def kwSearchAux (kw : List Char) : Bool → List Char → Bool
  | prev, cs =>
    ((prev != headIsWord cs) && matchKwFrom kw prev cs) ||
      (match cs with
       | [] => false
       | c :: t => kwSearchAux kw (isWordChar c) t)

/-- Match a literal character sequence, returning the rest on success. -/
def matchLitFrom : List Char → List Char → Option (List Char)
  | [], cs => some cs
  | _ :: _, [] => none
  | k :: kw, c :: cs => if k == c then matchLitFrom kw cs else none

/-- Possible rests after the alternation
`(software|backend|frontend|full.?stack|devops|infrastructure|sre)`
(`full.?stack` tries both arities of `.?`). -/
def engAltRests (cs : List Char) : List (List Char) :=
  let lits := ["software", "backend", "frontend", "devops", "infrastructure", "sre"]
  let base := lits.filterMap fun l => matchLitFrom l.data cs
  let fs :=
    match matchLitFrom "full".data cs with
    | none => []
    | some r =>
      (match matchLitFrom "stack".data r with
       | some r2 => [r2]
       | none => []) ++
      (match r with
       | c :: r' =>
         if c != '\n' then
           match matchLitFrom "stack".data r' with
           | some r2 => [r2]
           | none => []
         else []
       | [] => [])
  base ++ fs

/-- Match `\s+` followed by the literal `lit` (no trailing boundary). -/
def sPlusThen (lit : List Char) : List Char → Bool
  | [] => false
  | c :: cs => isPySpace c && ((matchLitFrom lit cs).isSome || sPlusThen lit cs)

/-- Match the broadened engineering pattern at the current position. -/
def engMatchAt (prev : Bool) (cs : List Char) : Bool :=
  (prev != headIsWord cs) && (engAltRests cs).any fun r => sPlusThen "engineer".data r

/-- `re.search` of the broadened engineering pattern. -/
def engSearchAux : Bool → List Char → Bool
  | prev, cs =>
    engMatchAt prev cs ||
      (match cs with
       | [] => false
       | c :: t => engSearchAux (isWordChar c) t)

/-- Search the broadened engineering pattern in `text`. -/
def engSearch (text : String) : Bool := engSearchAux false text.data

/-- One compiled department pattern: a keyword pattern body, or the
broadened engineering pattern. -/
inductive DeptPattern where
  | kw (body : List Char)
  | eng
  deriving Repr, DecidableEq

/-- Lines 112–120: for each target keyword append its keyword pattern and —
when its lowering contains `"engineering"` — the broadened pattern. -/
def buildDeptPatterns (targets : List String) : List DeptPattern :=
  targets.foldr
    (fun dept acc =>
      DeptPattern.kw (pyLower dept).data ::
        ((if strContains (pyLower dept) "engineering" then [DeptPattern.eng] else []) ++ acc))
    []

/-- Does pattern `p` match the (already lowered) text? -/
def patMatches (p : DeptPattern) (text : String) : Bool :=
  match p with
  | .kw body => kwSearchAux body false text.data
  | .eng => engSearch text

/-- Lines 122–139: keep a job when some compiled pattern matches its lowered
title or description, setting its department to the first target keyword;
an empty target list disables the filter (`if target_departments:`). -/
def filterByDepartment (targets : List String) (jobs : List Job) : List Job :=
  if targets.isEmpty then jobs
  else
    let pats := buildDeptPatterns targets
    jobs.filterMap fun job =>
      let title := pyLower job.title
      let description := pyLower job.description
      if pats.any (fun p => patMatches p title || patMatches p description) then
        some { job with department := targets.head? }
      else none

/-! ## Lever adapter (lever.py lines 8–45)

The whole body sits in an outer `try`: the HTTP fetch and HTML parse happen
before the per-item loop, a per-item exception is caught (logged) and the
item skipped, and an adapter-level exception is caught (logged) by the outer
handler after which the accumulated `jobs` list — still empty, since fetching
precedes the loop — is returned.  Greenhouse (greenhouse.py) and Workday
(workday.py) have the same shape.  The network fetch and BeautifulSoup
parsing are modelled by their outcomes. -/

/-- Outcome of parsing one posting container: the job dict, or a raised
per-item parse exception. -/
inductive ItemOutcome where
  | ok (j : Job)
  | raise
  deriving Repr, DecidableEq

/-- Outcome of the adapter's page fetch: the posting containers, or a raised
adapter-level exception (unreachable host, timeout, …). -/
inductive FetchOutcome where
  | ok (items : List ItemOutcome)
  | raise (msg : String)

/-- `crawl_lever`: result as `Except`, so that "the adapter never raises to
its caller" is expressible; every path returns `.ok`. -/
def crawlLever (fetch : FetchOutcome) : Except String (List Job) :=
  match fetch with
  | .raise _ => .ok []
  | .ok items =>
    .ok (items.filterMap fun it =>
      match it with
      | .ok j => some j
      | .raise => none)

/-! ## Ashby adapter (ashby.py lines 9–98)

The adapter renders the page in a headless browser (no `try` around it: a
render failure propagates to the caller), then walks every anchor of the
soup.  We model the rendered page by its anchors and the `window.__appData`
job postings. -/

/-- Python `str.strip("/")`. -/
def pyStripSlashes (s : String) : String :=
  ⟨((s.data.dropWhile (· == '/')).reverse.dropWhile (· == '/')).reverse⟩

/-- One anchor of the rendered page: `href` attribute and (stripped) text. -/
structure Anchor where
  href : String
  text : String
  deriving Repr, DecidableEq

/-- One entry of `appData.jobBoard.jobPostings`. -/
structure Posting where
  id : String
  title : Option String
  departmentName : Option String
  teamName : Option String
  locationName : Option String
  secondaryLocationNames : List String
  employmentType : Option String
  publishedDate : Option String
  deriving Repr, DecidableEq

/-- The rendered page: anchors plus appData postings ([] when appData is
absent). -/
structure RenderedPage where
  anchors : List Anchor
  postings : List Posting
  deriving Repr, DecidableEq

/-- Python `str.split(sep)` on a single-character separator: empty pieces
are kept (splitting the empty string gives one empty piece). -/
def splitOnChar (sep : Char) : List Char → List String
  | [] => [""]
  | c :: cs =>
    if c == sep then "" :: splitOnChar sep cs
    else
      match splitOnChar sep cs with
      | s :: rest => (⟨c :: s.data⟩ : String) :: rest
      | [] => [⟨[c]⟩]

/-- ashby.py line 50: `[p for p in href.strip("/").split("/") if p]`. -/
def anchorParts (href : String) : List String :=
  (splitOnChar '/' (pyStripSlashes href).data).filter fun p => p ≠ ""

/-- ashby.py lines 44–62: acceptance and canonical-URL construction for one
anchor.  The stripped href is rejected when it contains `"/apply"` or does
not contain the company slug as a substring; its slash-stripped form is
split on `'/'` keeping non-empty segments; the segment list must be
non-empty with a final segment of length ≥ 20 (the external id).  When
there are ≥ 3 segments and the second is literally `"jobs"`, the URL is
`origin + "/{slug}/jobs/{id}"`, else `origin + "/{slug}/{id}"`
(`urljoin(origin, "/p")` against a scheme://host origin is `origin ++ "/p"`).
Returns `(external_id, job_url)` for accepted anchors. -/
def processAnchor (origin companySlug : String) (href0 : String) :
    Option (String × String) :=
  let href := pyStrip href0
  if strContains href "/apply" || !strContains href companySlug then none
  else
    let parts := anchorParts href
    match parts.getLast? with
    | none => none
    | some lastPart =>
      if lastPart.length < 20 then none
      else
        if parts.length ≥ 3 && parts[1]? == some "jobs" then
          some (lastPart, origin ++ "/" ++ companySlug ++ "/jobs/" ++ lastPart)
        else
          some (lastPart, origin ++ "/" ++ companySlug ++ "/" ++ lastPart)

/-- Python truthiness-based `a or b` on optional strings. -/
def pyOrOpt (a b : Option String) : Option String :=
  match a with
  | some s => if s = "" then b else some s
  | none => b

/-- `id_to_posting.get(external_id, {})`: the last posting with this (truthy)
id wins, as in the dict-building loop. -/
def lookupPosting (postings : List Posting) (eid : String) : Option Posting :=
  (postings.filter fun p => p.id ≠ "" && p.id == eid).getLast?

/-- ashby.py lines 64–93: build the job dict for one accepted anchor. -/
def ashbyJobOfAnchor (origin companySlug : String) (postings : List Posting)
    (a : Anchor) : Option Job :=
  match processAnchor origin companySlug a.href with
  | none => none
  | some (eid, jobUrl) =>
    let posting := lookupPosting postings eid
    let title :=
      match pyOrOpt (posting.bind Posting.title) (some a.text) with
      | some t => t
      | none => ""
    if title = "" then none
    else
      let department := pyOrOpt (posting.bind Posting.departmentName)
        (posting.bind Posting.teamName)
      let location :=
        match pyOrOpt (posting.bind Posting.locationName) none with
        | some l => l
        | none => "Remote"
      let location :=
        match posting.map Posting.secondaryLocationNames with
        | some (sec :: _) => if sec ≠ "" then location ++ ", " ++ sec else location
        | _ => location
      let jobType :=
        if posting.bind Posting.employmentType == some "FullTime"
        then "full_time" else "unknown"
      some
        { external_id := some eid
          title := title
          company := companySlug
          location := location
          department := department
          description := ""
          job_type := jobType
          url := jobUrl
          posting_date := posting.bind Posting.publishedDate }

/-- `crawl_ashby` given the outcome of the browser render: a render failure
propagates (there is no handler in the adapter); on success every anchor is
processed. -/
def crawlAshby (origin companySlug : String)
    (render : Except String RenderedPage) : Except String (List Job) :=
  match render with
  | .error e => .error e
  | .ok page => .ok (page.anchors.filterMap (ashbyJobOfAnchor origin companySlug page.postings))

/-! ## The store and the reconciliation loop (crawler/__init__.py lines 48–259) -/

/-- A persisted row of the `jobs` table. -/
structure Row where
  id : Nat
  source_id : Nat
  external_id : Option String
  title : String
  company : String
  location : String
  department : Option String
  description : String
  job_type : String
  url : String
  posting_date : Option String
  is_active : Bool
  deriving Repr, DecidableEq

/-- A row of the `crawler_runs` table (`completed` models `completed_at`
being set). -/
structure RunRow where
  id : Nat
  source_id : Nat
  status : String
  jobs_found : Option Nat
  jobs_new : Option Nat
  jobs_updated : Option Nat
  completed : Bool
  deriving Repr, DecidableEq

/-- A row of the `job_sources` table, with `target_departments` already
parsed from its JSON text (an absent/NULL list is the empty list, which is
also falsy in the Python guard). -/
structure SourceRow where
  id : Nat
  scraper_type : String
  url : String
  name : String
  target_departments : List String
  deriving Repr, DecidableEq

/-- The relational store state, with the auto-increment counters. -/
structure DB where
  jobs : List Row
  runs : List RunRow
  nextJobId : Nat
  nextRunId : Nat
  deriving Repr, DecidableEq

/-- The `:external_id` bind parameter of the existence check:
`job.get('external_id') or ''`. -/
def extParam (j : Job) : String := j.external_id.getD ""

/-- The existence-check query (lines 148–161): same source and
`(external_id = :external_id OR url = :url)`; a SQL NULL `external_id`
column never equals the parameter. -/
def orKeyMatch (sourceId : Nat) (j : Job) (r : Row) : Bool :=
  r.source_id == sourceId && (r.external_id == some (extParam j) || r.url == j.url)

/-- Modelled from the spec: the `jobs` table's unique-key declaration, which
`INSERT … ON DUPLICATE KEY UPDATE` resolves against, is not among the
sources (no DDL in the repository slice); the spec's store contract says
"natural-key upsert" with "Natural key: (source_id, external_id) when
external_id is non-empty; otherwise (source_id, url)". -/
def natKeyMatch (sourceId : Nat) (j : Job) (r : Row) : Bool :=
  r.source_id == sourceId &&
    (match j.external_id with
     | some e => if e == "" then r.url == j.url else r.external_id == some e
     | none => r.url == j.url)

/-- The `ON DUPLICATE KEY UPDATE` field list (lines 171–181): title, url,
description, department, location, job_type, posting_date, is_active := true
(company and external_id are not updated). -/
def applyUpdate (j : Job) (r : Row) : Row :=
  { r with title := j.title, url := j.url, description := j.description,
           department := j.department, location := j.location,
           job_type := j.job_type, posting_date := j.posting_date,
           is_active := true }

/-- A fresh row from the `INSERT` field list (lines 164–170, 184–195); the
company column takes the configured source name. -/
def newRow (rowId sourceId : Nat) (companyName : String) (j : Job) : Row :=
  { id := rowId, source_id := sourceId, external_id := j.external_id,
    title := j.title, company := companyName, location := j.location,
    department := j.department, description := j.description,
    job_type := j.job_type, url := j.url, posting_date := j.posting_date,
    is_active := true }

/-- Update the first row matching the natural key. -/
def updateMatching (sourceId : Nat) (j : Job) : List Row → List Row
  | [] => []
  | r :: rs =>
    if natKeyMatch sourceId j r then applyUpdate j r :: rs
    else r :: updateMatching sourceId j rs

/-- Modelled from the spec: the upsert issued by `execute_insert` — update
the row hit by the natural key, else insert a fresh one.  Returns the new
rows and the next auto-increment id. -/
def upsertJob (sourceId : Nat) (companyName : String) (nextId : Nat)
    (rows : List Row) (j : Job) : List Row × Nat :=
  if rows.any (natKeyMatch sourceId j) then (updateMatching sourceId j rows, nextId)
  else (rows ++ [newRow nextId sourceId companyName j], nextId + 1)

/-- The per-listing loop state: the jobs table, the auto-increment counter,
the `crawled_job_urls` seen set, and the two counters. -/
structure LoopState where
  rows : List Row
  nextId : Nat
  seen : List String
  newCount : Nat
  updatedCount : Nat
  deriving Repr, DecidableEq

/-- One iteration of the per-listing loop (lines 142–205).  The whole
iteration body is inside `try`: when its store interaction raises
(`fails i`), none of the iteration's effects happen — no row change, no
`seen` entry, no count bump — and the loop continues with the next listing. -/
def loopStep (sourceId : Nat) (companyName : String) (fails : Nat → Bool)
    (st : LoopState) (i : Nat) (j : Job) : LoopState :=
  if fails i then st
  else
    let existing := st.rows.any (orKeyMatch sourceId j)
    let up := upsertJob sourceId companyName st.nextId st.rows j
    { rows := up.1, nextId := up.2,
      seen := st.seen ++ [j.url],
      newCount := if existing then st.newCount else st.newCount + 1,
      updatedCount := if existing then st.updatedCount + 1 else st.updatedCount }

/-- The per-listing loop, listing index starting at `i`. -/
def runLoopAux (sourceId : Nat) (companyName : String) (fails : Nat → Bool) :
    Nat → LoopState → List Job → LoopState
  | _, st, [] => st
  | i, st, j :: js =>
    runLoopAux sourceId companyName fails (i + 1)
      (loopStep sourceId companyName fails st i j) js

/-- The per-listing loop over the filtered batch. -/
def runLoop (sourceId : Nat) (companyName : String) (fails : Nat → Bool)
    (rows : List Row) (nextId : Nat) (js : List Job) : LoopState :=
  runLoopAux sourceId companyName fails 0
    { rows := rows, nextId := nextId, seen := [], newCount := 0, updatedCount := 0 } js

/-- `UPDATE jobs SET is_active = FALSE WHERE id = :job_id` (lines 219–224). -/
def deactivateById (jobId : Nat) (rows : List Row) : List Row :=
  rows.map fun r => if r.id == jobId then { r with is_active := false } else r

/-- Lines 226–228: deactivate (by id) every fetched active row whose url is
not in the seen set. -/
def sweepLoop (seen : List String) : List Row → List Row → List Row
  | [], rows => rows
  | a :: actives, rows =>
    sweepLoop seen actives
      (if seen.contains a.url then rows else deactivateById a.id rows)

/-- The deactivation sweep (lines 207–230): fetch the currently active rows
of this source, then run the per-row loop.  (The code wraps the whole sweep
in one try/except that only logs; executions where a sweep query raises are
not modelled — the claims under study concern the sweep's success path.) -/
def sweepDeactivate (sourceId : Nat) (seen : List String) (rows : List Row) :
    List Row :=
  sweepLoop seen (rows.filter fun r => r.source_id == sourceId && r.is_active) rows

/-- Lines 233–247: mark the run row completed, with the final counts and
`completed_at`. -/
def updateRun (runId found newC updC : Nat) (runs : List RunRow) : List RunRow :=
  runs.map fun r =>
    if r.id == runId then
      { r with status := "completed", jobs_found := some found,
               jobs_new := some newC, jobs_updated := some updC,
               completed := true }
    else r

/-- The run row inserted at invocation start (lines 56–60). -/
def startedRun (runId sourceId : Nat) : RunRow :=
  { id := runId, source_id := sourceId, status := "started",
    jobs_found := none, jobs_new := none, jobs_updated := none,
    completed := false }

/-- The structured result dict of `crawl_source`. -/
structure CrawlResult where
  status : String
  message : Option String := none
  error : Option String := none
  source_id : Option Nat := none
  jobs_found : Option Nat := none
  jobs_new : Option Nat := none
  jobs_updated : Option Nat := none
  deriving Repr, DecidableEq

/-- Outcome of a dispatched adapter call: the batch, or a raised exception
(which the orchestrator's outer `except` catches). -/
inductive AdapterResult where
  | ok (jobs : List Job)
  | raise (msg : String)

/-- The closed enumeration of dispatched scraper types (lines 76–87). -/
def validScraperType (t : String) : Bool :=
  t == "lever" || t == "greenhouse" || t == "workday" || t == "ashby"

/-- `crawl_source` (lines 48–259): insert the `started` run row; load the
source row; fail structurally on a missing source or unknown scraper type
(leaving the run row untouched, as the code's early `return`s do); dispatch
the adapter (a raise is caught by the outer `except` into a failed result);
filter by age then department; run the per-listing loop; run the
deactivation sweep; mark the run row completed; return the success dict.
The run-row insert, the source query and the run-row update are taken to
succeed (their failures would be caught by the same outer `except` as a
raising adapter and yield the same failed result shape). -/
def crawlSource (db : DB) (sources : List SourceRow)
    (adapter : String → String → AdapterResult) (now : Int) (fails : Nat → Bool)
    (sourceId : Nat) (maxPostAgeHours : Option Nat) : DB × CrawlResult :=
  let runId := db.nextRunId
  let db1 : DB :=
    { db with runs := db.runs ++ [startedRun runId sourceId],
              nextRunId := runId + 1 }
  match sources.find? (fun s => s.id == sourceId) with
  | none => (db1, { status := "failed", message := some "Source not found" })
  | some src =>
    if !validScraperType src.scraper_type then
      (db1, { status := "failed",
              message := some ("Unknown scraper type: " ++ src.scraper_type) })
    else
      match adapter src.scraper_type src.url with
      | .raise e => (db1, { status := "failed", error := some e })
      | .ok jobs0 =>
        let jobs1 := filterByAge maxPostAgeHours now jobs0
        let jobs := filterByDepartment src.target_departments jobs1
        let st := runLoop sourceId src.name fails db1.jobs db1.nextJobId jobs
        let rowsAfter := sweepDeactivate sourceId st.seen st.rows
        let db2 : DB :=
          { jobs := rowsAfter,
            runs := updateRun runId jobs.length st.newCount st.updatedCount db1.runs,
            nextJobId := st.nextId, nextRunId := db1.nextRunId }
        (db2, { status := "success", source_id := some sourceId,
                jobs_found := some jobs.length, jobs_new := some st.newCount,
                jobs_updated := some st.updatedCount })

/-- The inputs of one `crawl_source` invocation. -/
structure CallSpec where
  sources : List SourceRow
  adapter : String → String → AdapterResult
  now : Int
  fails : Nat → Bool
  sourceId : Nat
  maxPostAgeHours : Option Nat

/-- A sequence of `crawl_source` invocations over the store. -/
def crawlMany (calls : List CallSpec) (db : DB) : DB :=
  calls.foldl
    (fun d c =>
      (crawlSource d c.sources c.adapter c.now c.fails c.sourceId c.maxPostAgeHours).1)
    db

/-! ## Derived predicates and fixtures used by the statements -/

/-- Number of loop iterations (indexed from `i`) whose store write succeeds. -/
def okCount (fails : Nat → Bool) : Nat → List Job → Nat
  | _, [] => 0
  | i, _ :: js => (if fails i then 0 else 1) + okCount fails (i + 1) js

/-- The survival predicate of the department-filter claim: some target
keyword's word-boundary whitespace-normalized pattern — or, when some
target keyword contains "engineering", the broadened engineering pattern —
matches the lowered title or description. -/
def deptClaimMatch (targets : List String) (j : Job) : Bool :=
  (targets.any fun dept =>
      patMatches (.kw (pyLower dept).data) (pyLower j.title) ||
        patMatches (.kw (pyLower dept).data) (pyLower j.description)) ||
    ((targets.any fun dept => strContains (pyLower dept) "engineering") &&
      (patMatches .eng (pyLower j.title) || patMatches .eng (pyLower j.description)))

/-- Fixture: an engineering job (the spec's own department-filter example). -/
def engJob : Job :=
  { external_id := some "e1", title := "Senior Backend Engineer", company := "C",
    location := "NY", department := none, description := "",
    job_type := "full_time", url := "https://x/e1", posting_date := none }

/-- Fixture: a non-engineering job. -/
def salesJob : Job :=
  { engJob with external_id := some "s1", title := "Sales Manager",
                url := "https://x/s1" }

/-- Fixture: a job whose posting date parses to exactly 86400 s (the age
boundary in the witness). -/
def boundaryJob : Job := { engJob with posting_date := some "1970-01-02T00:00:00Z" }

/-- Fixture: an enabled lever source with department targeting disabled. -/
def demoSource : SourceRow :=
  { id := 1, scraper_type := "lever", url := "https://x", name := "Acme",
    target_departments := [] }

/-- Fixture: the empty store. -/
def emptyDB : DB := { jobs := [], runs := [], nextJobId := 1, nextRunId := 1 }

/-- Fixture: a stored listing with external id "A" and url `https://x/u`. -/
def cexRow : Row :=
  { id := 1, source_id := 1, external_id := some "A", title := "Old",
    company := "Acme", location := "NY", department := none, description := "",
    job_type := "full_time", url := "https://x/u", posting_date := none,
    is_active := true }

/-- Fixture: an incoming listing with a different non-empty external id "B"
but the same url as `cexRow`. -/
def cexJob : Job :=
  { external_id := some "B", title := "New", company := "Acme", location := "NY",
    department := none, description := "", job_type := "full_time",
    url := "https://x/u", posting_date := none }

/-- Fixture: a store holding exactly `cexRow`. -/
def cexDB : DB := { jobs := [cexRow], runs := [], nextJobId := 2, nextRunId := 1 }

/-- Fixture: an active row of the same source whose url disappeared from
the crawl batch. -/
def retRow : Row := { cexRow with id := 2, url := "https://x/gone" }

/-- Fixture: an incoming listing with no external id. -/
def noExtJob : Job := { cexJob with external_id := none }

/-! # Theorems -/

/-- C7: with an age cutoff of `h` hours, the age filter keeps a listing iff
its posting_date is absent or unparsable (`parseIsoDatetimeMaybe` returns
`none`) or parses to an instant at or after `now − h` hours — the boundary
is inclusive; with no cutoff every listing is kept. -/
theorem age_filter_keeps_iff (h : Nat) (now : Int) (jobs : List Job) (j : Job) :
    filterByAge none now jobs = jobs ∧
    (j ∈ filterByAge (some h) now jobs ↔
      j ∈ jobs ∧
        (parseIsoDatetimeMaybe j.posting_date = none ∨
          ∃ t, parseIsoDatetimeMaybe j.posting_date = some t ∧
            now - (h : Int) * 3600 ≤ t)) := by
  refine ⟨rfl, ?_⟩
  simp only [filterByAge, List.mem_filter]
  constructor
  · rintro ⟨hmem, hkeep⟩
    refine ⟨hmem, ?_⟩
    rcases hp : parseIsoDatetimeMaybe j.posting_date with _ | t
    · exact Or.inl rfl
    · rw [hp] at hkeep
      simp only [decide_eq_true_eq] at hkeep
      exact Or.inr ⟨t, rfl, hkeep⟩
  · rintro ⟨hmem, hcond⟩
    refine ⟨hmem, ?_⟩
    rcases hcond with hp | ⟨t, hp, ht⟩
    · simp [hp]
    · simp [hp, ht]

/-- C7 witness: a listing whose posting date is exactly `now − 1 h`
(`now = 90000`, date `1970-01-02T00:00:00Z` = 86400 s) is kept by the
filter, and the no-cutoff case keeps everything. -/
theorem age_filter_keeps_iff_witness :
    boundaryJob ∈ filterByAge (some 1) 90000 [boundaryJob] ∧
      filterByAge none 90000 [boundaryJob] = [boundaryJob] := by
  refine ⟨?_, (age_filter_keeps_iff 1 90000 [boundaryJob] boundaryJob).1⟩
  exact (age_filter_keeps_iff 1 90000 [boundaryJob] boundaryJob).2.mpr
    ⟨by decide, Or.inr ⟨86400, by decide, by decide⟩⟩

/-- A compiled-pattern list built by `buildDeptPatterns` matches (under any
test `f`) iff some keyword pattern does, or some keyword contains
"engineering" and the broadened pattern does. -/
theorem buildDeptPatterns_any (f : DeptPattern → Bool) (targets : List String) :
    (buildDeptPatterns targets).any f =
      ((targets.any fun dept => f (.kw (pyLower dept).data)) ||
        ((targets.any fun dept => strContains (pyLower dept) "engineering") && f .eng)) := by
  induction targets with
  | nil => rfl
  | cons d ts ih =>
    by_cases hd : strContains (pyLower d) "engineering"
    · simp only [buildDeptPatterns, List.foldr_cons, List.any_cons, hd, if_true,
        List.any_append, List.any_cons, List.any_nil] at *
      rw [ih]
      cases f (DeptPattern.kw (pyLower d).data) <;> cases f DeptPattern.eng <;> simp
    · simp only [buildDeptPatterns, List.foldr_cons, List.any_cons, hd, if_false,
        List.any_append, List.any_nil] at *
      rw [ih]
      cases f (DeptPattern.kw (pyLower d).data) <;> cases f DeptPattern.eng <;> simp [hd]

/-- `filterMap` of a guarded `some` is filter-then-map. -/
theorem filterMap_guard {α β : Type} (p : α → Bool) (g : α → β) (l : List α) :
    (l.filterMap fun a => if p a then some (g a) else none) = (l.filter p).map g := by
  induction l with
  | nil => rfl
  | cons a t ih =>
    by_cases hp : p a <;> simp [List.filterMap_cons, List.filter_cons, hp, ih]

/-- C8: with a non-empty target list the department filter keeps exactly the
listings matched by some target keyword's word-boundary, case-insensitive,
whitespace-normalized pattern or (when some target keyword contains
"engineering") the broadened software/backend/frontend/full-stack/devops/
infrastructure/SRE + "engineer" pattern, against title or description, and
sets each survivor's department to the first configured target; with no
target list every listing passes unchanged. -/
theorem dept_filter_characterization (targets : List String) (jobs : List Job) :
    (targets = [] → filterByDepartment targets jobs = jobs) ∧
    (targets ≠ [] →
      filterByDepartment targets jobs =
        (jobs.filter (deptClaimMatch targets)).map
          fun j => { j with department := targets.head? }) := by
  constructor
  · rintro rfl; rfl
  · intro hne
    have hempty : targets.isEmpty = false := by
      cases targets with
      | nil => exact absurd rfl hne
      | cons a t => rfl
    simp only [filterByDepartment, hempty, Bool.false_eq_true, if_false]
    have hpred : (fun job => (buildDeptPatterns targets).any
          fun p => patMatches p (pyLower job.title) || patMatches p (pyLower job.description))
        = deptClaimMatch targets := by
      funext job
      rw [buildDeptPatterns_any]
      rfl
    rw [filterMap_guard _ _ jobs, hpred]

/-- C8 witness (the spec's example): with target `["Engineering"]` the job
titled "Senior Backend Engineer" survives and is enriched with
`department = "Engineering"` while "Sales Manager" is dropped; with no
targets both pass. -/
theorem dept_filter_characterization_witness :
    filterByDepartment ["Engineering"] [engJob, salesJob] =
        [{ engJob with department := some "Engineering" }] ∧
      filterByDepartment [] [engJob, salesJob] = [engJob, salesJob] := by
  constructor
  · rw [(dept_filter_characterization ["Engineering"] [engJob, salesJob]).2 (by decide)]
    decide
  · exact (dept_filter_characterization [] [engJob, salesJob]).1 rfl

/-- C9 counterexample: for the accepted anchor `/x/acme/jobs/<21-char id>`
(company slug "acme"), the path's segments are
`[x, acme, jobs, <id>]` — they contain a literal "jobs" segment immediately
after the company-slug segment — yet the constructed canonical URL is the
direct two-segment form, not `origin + "/acme/jobs/<id>"` as the claim
requires for this case. -/
theorem ashby_url_claim_counterexample :
    anchorParts (pyStrip "/x/acme/jobs/abcdefghijklmnopqrst5") =
        ["x", "acme", "jobs", "abcdefghijklmnopqrst5"] ∧
      processAnchor "https://jobs.ashbyhq.com" "acme"
          "/x/acme/jobs/abcdefghijklmnopqrst5" =
        some ("abcdefghijklmnopqrst5",
          "https://jobs.ashbyhq.com/acme/abcdefghijklmnopqrst5") ∧
      "https://jobs.ashbyhq.com/acme/abcdefghijklmnopqrst5" ≠
        "https://jobs.ashbyhq.com" ++ "/" ++ "acme" ++ "/jobs/" ++
          "abcdefghijklmnopqrst5" :=
  ⟨by decide, by decide, by decide⟩

/-- C9 (amended): for every anchor accepted for extraction, the external id
is the final segment of the slash-split path, and the URL branches on the
*position* of the "jobs" segment: when the path has at least three segments
and its *second* segment is literally "jobs", the canonical URL is
`origin + "/{slug}/jobs/{id}"`; otherwise it is the direct two-segment form
`origin + "/{slug}/{id}"`. -/
theorem ashby_url_branching (origin slug href eid url : String)
    (hacc : processAnchor origin slug href = some (eid, url)) :
    (anchorParts (pyStrip href)).getLast? = some eid ∧
      ((anchorParts (pyStrip href)).length ≥ 3 ∧
          (anchorParts (pyStrip href))[1]? = some "jobs" →
        url = origin ++ "/" ++ slug ++ "/jobs/" ++ eid) ∧
      (¬((anchorParts (pyStrip href)).length ≥ 3 ∧
          (anchorParts (pyStrip href))[1]? = some "jobs") →
        url = origin ++ "/" ++ slug ++ "/" ++ eid) := by
  simp only [processAnchor] at hacc
  split at hacc
  · exact absurd hacc (by simp)
  · split at hacc
    · exact absurd hacc (by simp)
    · rename_i lastPart hlast
      split at hacc
      · exact absurd hacc (by simp)
      · split at hacc
        · rename_i hbranch
          injection hacc with hpair
          injection hpair with heid hurl
          subst heid hurl
          simp only [Bool.and_eq_true, decide_eq_true_eq, beq_iff_eq] at hbranch
          exact ⟨hlast, fun _ => rfl, fun hn => absurd hbranch hn⟩
        · rename_i hbranch
          injection hacc with hpair
          injection hpair with heid hurl
          subst heid hurl
          simp only [Bool.and_eq_true, decide_eq_true_eq, beq_iff_eq, not_and] at hbranch
          refine ⟨hlast, fun hb => ?_, fun _ => rfl⟩
          exact absurd hb.2 (hbranch hb.1)

/-- C9 witness: the two concrete anchors of the testable property — one
with "jobs" as second segment, one without — take the two URL forms. -/
theorem ashby_url_branching_witness :
    (anchorParts (pyStrip "/acme/jobs/abcdefghijklmnopqrstu")).getLast? =
        some "abcdefghijklmnopqrstu" ∧
      "https://jobs.ashbyhq.com/acme/jobs/abcdefghijklmnopqrstu" =
        "https://jobs.ashbyhq.com" ++ "/" ++ "acme" ++ "/jobs/" ++
          "abcdefghijklmnopqrstu" ∧
      "https://jobs.ashbyhq.com/acme/abcdefghijklmnopqrstu" =
        "https://jobs.ashbyhq.com" ++ "/" ++ "acme" ++ "/" ++
          "abcdefghijklmnopqrstu" := by
  have h1 := ashby_url_branching "https://jobs.ashbyhq.com" "acme"
    "/acme/jobs/abcdefghijklmnopqrstu" "abcdefghijklmnopqrstu"
    "https://jobs.ashbyhq.com/acme/jobs/abcdefghijklmnopqrstu" (by decide)
  have h2 := ashby_url_branching "https://jobs.ashbyhq.com" "acme"
    "/acme/abcdefghijklmnopqrstu" "abcdefghijklmnopqrstu"
    "https://jobs.ashbyhq.com/acme/abcdefghijklmnopqrstu" (by decide)
  exact ⟨h1.1, h1.2.1 (by decide), h2.2.2 (by decide)⟩

/-- C1 counterexample: an adapter-level failure in the Lever adapter
(unreachable host, fetch timeout) does not propagate to the adapter's
caller — the outer `except` swallows it and the adapter returns a normal,
empty listing batch. -/
theorem adapter_failure_claim_counterexample :
    crawlLever (.raise "ConnectTimeout: host unreachable") = .ok [] ∧
      (crawlLever (.raise "ConnectTimeout: host unreachable")).isOk = true :=
  ⟨rfl, rfl⟩

/-- C1 (amended): per-item parse failures in the Lever adapter are caught
and skipped while the remaining items are returned, but an adapter-level
failure is *also* caught inside the Lever (and Greenhouse/Workday) adapter,
which then returns a normal empty batch; only the Ashby adapter propagates
adapter-level failures to its caller, and the orchestrator boundary
converts a raising adapter into a failed status for that source. -/
theorem adapter_failure_handling (items : List ItemOutcome)
    (msg origin slug : String) (db : DB) (sources : List SourceRow)
    (adapter : String → String → AdapterResult) (now : Int) (fails : Nat → Bool)
    (sid : Nat) (maxAge : Option Nat) (src : SourceRow)
    (hfind : sources.find? (fun s => s.id == sid) = some src)
    (hvalid : validScraperType src.scraper_type = true)
    (hadapter : adapter src.scraper_type src.url = .raise msg) :
    crawlLever (.ok items) =
        .ok (items.filterMap fun it =>
          match it with
          | .ok j => some j
          | .raise => none) ∧
      crawlLever (.raise msg) = .ok [] ∧
      crawlAshby origin slug (.error msg) = .error msg ∧
      (crawlSource db sources adapter now fails sid maxAge).2.status = "failed" ∧
      (crawlSource db sources adapter now fails sid maxAge).2.error = some msg := by
  refine ⟨rfl, rfl, rfl, ?_, ?_⟩ <;>
    simp [crawlSource, hfind, hvalid, hadapter]

/-- C1 witness: a concrete three-item batch with a malformed middle item
yields the other two; a concrete source whose adapter raises gives a failed
crawl status. -/
theorem adapter_failure_handling_witness :
    crawlLever (.ok [.ok engJob, .raise, .ok salesJob]) = .ok [engJob, salesJob] ∧
      (crawlSource emptyDB [demoSource] (fun _ _ => .raise "timeout") 0
          (fun _ => false) 1 none).2.status = "failed" := by
  have h := adapter_failure_handling [.ok engJob, .raise, .ok salesJob]
    "timeout" "https://jobs.ashbyhq.com" "acme" emptyDB [demoSource]
    (fun _ _ => .raise "timeout") 0 (fun _ => false) 1 none demoSource
    (by decide) (by decide) rfl
  exact ⟨h.1.trans rfl, h.2.2.2.1⟩

/-! ## Store lemmas -/

/-- Updating the natural-key match keeps the id column. -/
theorem updateMatching_map_id (sid : Nat) (j : Job) (rows : List Row) :
    (updateMatching sid j rows).map Row.id = rows.map Row.id := by
  induction rows with
  | nil => rfl
  | cons r rs ih =>
    by_cases h : natKeyMatch sid j r = true <;>
      simp [updateMatching, h, ih, applyUpdate]

/-- An upsert extends the id column by at most the fresh id. -/
theorem upsertJob_map_id (sid : Nat) (name : String) (nid : Nat)
    (rows : List Row) (j : Job) :
    ∃ t, (upsertJob sid name nid rows j).1.map Row.id = rows.map Row.id ++ t := by
  by_cases h : rows.any (natKeyMatch sid j) = true
  · exact ⟨[], by simp [upsertJob, h, updateMatching_map_id]⟩
  · exact ⟨[nid], by simp [upsertJob, h, newRow]⟩

/-- One loop iteration extends the id column. -/
theorem loopStep_map_id (sid : Nat) (name : String) (fails : Nat → Bool)
    (st : LoopState) (i : Nat) (j : Job) :
    ∃ t, (loopStep sid name fails st i j).rows.map Row.id
        = st.rows.map Row.id ++ t := by
  by_cases hf : fails i = true
  · exact ⟨[], by simp [loopStep, hf]⟩
  · obtain ⟨t, ht⟩ := upsertJob_map_id sid name st.nextId st.rows j
    exact ⟨t, by simp [loopStep, hf, ht]⟩

/-- The whole loop extends the id column. -/
theorem runLoopAux_map_id (sid : Nat) (name : String) (fails : Nat → Bool) :
    ∀ (js : List Job) (i : Nat) (st : LoopState),
      ∃ t, (runLoopAux sid name fails i st js).rows.map Row.id
          = st.rows.map Row.id ++ t := by
  intro js
  induction js with
  | nil => exact fun i st => ⟨[], by simp [runLoopAux]⟩
  | cons j t ih =>
    intro i st
    obtain ⟨t1, h1⟩ := loopStep_map_id sid name fails st i j
    obtain ⟨t2, h2⟩ := ih (i + 1) (loopStep sid name fails st i j)
    exact ⟨t1 ++ t2, by rw [runLoopAux, h2, h1, List.append_assoc]⟩

/-- The sweep loop is a per-row map: a row is deactivated exactly when some
fetched active row shares its id and has an unseen url. -/
theorem sweepLoop_eq_map (seen : List String) (actives rows : List Row) :
    sweepLoop seen actives rows =
      rows.map fun r =>
        if actives.any (fun a => a.id == r.id && !seen.contains a.url)
        then { r with is_active := false } else r := by
  induction actives generalizing rows with
  | nil =>
    simp [sweepLoop]
  | cons a as ih =>
    rw [sweepLoop, ih]
    by_cases hc : seen.contains a.url = true
    · rw [if_pos hc]
      apply List.map_congr_left
      intro r _
      have hfalse : (a.id == r.id && !seen.contains a.url) = false := by
        rw [hc]; simp
      simp only [List.any_cons, hfalse, Bool.false_or]
    · rw [if_neg hc]
      unfold deactivateById
      rw [List.map_map]
      apply List.map_congr_left
      intro r _
      simp only [Function.comp_apply]
      have hcf : seen.contains a.url = false := Bool.eq_false_iff.mpr hc
      have hc' : (!seen.contains a.url) = true := by rw [hcf]; rfl
      by_cases hid : r.id = a.id
      · have hid1 : (r.id == a.id) = true := by rw [hid]; exact beq_self_eq_true a.id
        have hid2 : (a.id == r.id) = true := by rw [hid]; exact beq_self_eq_true a.id
        rw [if_pos hid1]
        simp only [List.any_cons, hid2, hc', Bool.and_self, Bool.true_and, Bool.true_or,
          if_true]
        by_cases hany :
            (as.any fun x => x.id == r.id && !seen.contains x.url) = true
        · rw [if_pos hany]
        · rw [if_neg hany]
      · have hid1 : (r.id == a.id) = false := by
          rw [Bool.eq_false_iff]
          simpa using hid
        have hid2 : (a.id == r.id) = false := by
          rw [Bool.eq_false_iff]
          simp only [ne_eq, beq_iff_eq]
          exact fun h => hid h.symm
        have hneg : ¬((r.id == a.id) = true) := by rw [hid1]; simp
        rw [if_neg hneg]
        simp only [List.any_cons, hid2, Bool.false_and, Bool.false_or]

/-- Rows with equal ids in an id-Nodup list are equal. -/
theorem row_eq_of_id_eq {rows : List Row} (hnd : (rows.map Row.id).Nodup)
    {a b : Row} (ha : a ∈ rows) (hb : b ∈ rows) (h : a.id = b.id) : a = b :=
  List.inj_on_of_nodup_map hnd ha hb h

/-- The deactivation sweep, under unique row ids, deactivates exactly the
active rows of the crawled source with unseen urls. -/
theorem sweepDeactivate_eq_map (sid : Nat) (seen : List String) (rows : List Row)
    (hnd : (rows.map Row.id).Nodup) :
    sweepDeactivate sid seen rows =
      rows.map fun r =>
        if r.source_id == sid && r.is_active && !seen.contains r.url
        then { r with is_active := false } else r := by
  unfold sweepDeactivate
  rw [sweepLoop_eq_map]
  apply List.map_congr_left
  intro r hr
  have hcond : ((rows.filter fun x => x.source_id == sid && x.is_active).any
        fun a => a.id == r.id && !seen.contains a.url) =
      (r.source_id == sid && r.is_active && !seen.contains r.url) := by
    by_cases hg : (r.source_id == sid && r.is_active && !seen.contains r.url) = true
    · rw [hg]
      rw [List.any_eq_true]
      simp only [Bool.and_eq_true] at hg
      refine ⟨r, List.mem_filter.mpr ⟨hr, ?_⟩, ?_⟩
      · simp only [Bool.and_eq_true]
        exact ⟨hg.1.1, hg.1.2⟩
      · simp only [Bool.and_eq_true]
        exact ⟨beq_self_eq_true r.id, hg.2⟩
    · have hgf : (r.source_id == sid && r.is_active && !seen.contains r.url) = false :=
        Bool.eq_false_iff.mpr hg
      rw [hgf, Bool.eq_false_iff]
      intro hany
      rw [List.any_eq_true] at hany
      obtain ⟨a, hamem, hcond⟩ := hany
      have hain := (List.mem_filter.mp hamem).1
      have hapred := (List.mem_filter.mp hamem).2
      rw [Bool.and_eq_true] at hcond hapred
      have haid : a.id = r.id := by
        have := hcond.1
        rwa [beq_iff_eq] at this
      have har : a = r := row_eq_of_id_eq hnd hain hr haid
      subst har
      rw [hapred.1, hapred.2, hcond.2] at hgf
      simp at hgf
  rw [hcond]

/-- C3: after the per-listing loop, the deactivation sweep sets
`is_active := false` on exactly those rows of the crawled source that were
active with a url absent from the run's seen set; every row — retired ones
included — still exists afterwards (the id column is unchanged). -/
theorem deactivation_sweep_exact (sid : Nat) (seen : List String)
    (rows : List Row) (hnd : (rows.map Row.id).Nodup) :
    sweepDeactivate sid seen rows =
      (rows.map fun r =>
        if r.source_id == sid && r.is_active && !seen.contains r.url
        then { r with is_active := false } else r) ∧
    (sweepDeactivate sid seen rows).map Row.id = rows.map Row.id := by
  refine ⟨sweepDeactivate_eq_map sid seen rows hnd, ?_⟩
  rw [sweepDeactivate_eq_map sid seen rows hnd, List.map_map]
  apply List.map_congr_left
  intro r _
  simp only [Function.comp_apply]
  split <;> rfl

/-- C3 witness: of two active rows of source 1, the one with the seen url
stays active and the one with the vanished url is retired in place, both
rows surviving with their ids. -/
theorem deactivation_sweep_exact_witness :
    sweepDeactivate 1 ["https://x/u"] [cexRow, retRow] =
        [cexRow, { retRow with is_active := false }] ∧
      (sweepDeactivate 1 ["https://x/u"] [cexRow, retRow]).map Row.id = [1, 2] := by
  have h := deactivation_sweep_exact 1 ["https://x/u"] [cexRow, retRow] (by decide)
  refine ⟨h.1.trans (by decide), h.2.trans (by decide)⟩

/-- The sweep never changes the id column (no uniqueness needed). -/
theorem sweepDeactivate_map_id (sid : Nat) (seen : List String) (rows : List Row) :
    (sweepDeactivate sid seen rows).map Row.id = rows.map Row.id := by
  unfold sweepDeactivate
  rw [sweepLoop_eq_map, List.map_map]
  apply List.map_congr_left
  intro r _
  simp only [Function.comp_apply]
  split <;> rfl

/-- One `crawl_source` call only extends the jobs-table id column. -/
theorem crawlSource_map_id_prefix (db : DB) (sources : List SourceRow)
    (adapter : String → String → AdapterResult) (now : Int) (fails : Nat → Bool)
    (sid : Nat) (maxAge : Option Nat) :
    ∃ t, (crawlSource db sources adapter now fails sid maxAge).1.jobs.map Row.id
        = db.jobs.map Row.id ++ t := by
  unfold crawlSource
  cases hf : sources.find? fun s => s.id == sid with
  | none => exact ⟨[], by simp⟩
  | some src =>
    by_cases hv : validScraperType src.scraper_type = true
    · cases ha : adapter src.scraper_type src.url with
      | raise msg => exact ⟨[], by simp [hv, ha]⟩
      | ok jobs0 =>
        obtain ⟨t, ht⟩ := runLoopAux_map_id sid src.name fails
          (filterByDepartment src.target_departments (filterByAge maxAge now jobs0))
          0 ⟨db.jobs, db.nextJobId, [], 0, 0⟩
        refine ⟨t, ?_⟩
        simp only [hv, ha, Bool.not_true, Bool.false_eq_true, if_false]
        rw [sweepDeactivate_map_id]
        exact ht
    · have hv' : validScraperType src.scraper_type = false := Bool.eq_false_iff.mpr hv
      exact ⟨[], by simp [hv']⟩

/-- C4: no sequence of `crawl_source` invocations over any store state ever
removes a Listing row — the final jobs table's id column is the initial id
column extended on the right (existing rows are only mutated in place, new
rows only appended). -/
theorem crawl_never_deletes (calls : List CallSpec) (db : DB) :
    ∃ t, (crawlMany calls db).jobs.map Row.id = db.jobs.map Row.id ++ t := by
  induction calls generalizing db with
  | nil => exact ⟨[], by simp [crawlMany]⟩
  | cons c cs ih =>
    obtain ⟨t1, h1⟩ := crawlSource_map_id_prefix db c.sources c.adapter c.now
      c.fails c.sourceId c.maxPostAgeHours
    obtain ⟨t2, h2⟩ := ih
      (crawlSource db c.sources c.adapter c.now c.fails c.sourceId c.maxPostAgeHours).1
    refine ⟨t1 ++ t2, ?_⟩
    show (crawlMany cs _).jobs.map Row.id = _
    rw [h2, h1, List.append_assoc]

/-- The two loop counters add up to the number of successful store writes. -/
theorem runLoopAux_counts (sid : Nat) (name : String) (fails : Nat → Bool) :
    ∀ (js : List Job) (i : Nat) (st : LoopState),
      (runLoopAux sid name fails i st js).newCount +
          (runLoopAux sid name fails i st js).updatedCount =
        st.newCount + st.updatedCount + okCount fails i js := by
  intro js
  induction js with
  | nil =>
    intro i st
    simp [runLoopAux, okCount]
  | cons j t ih =>
    intro i st
    rw [runLoopAux, okCount, ih (i + 1)]
    by_cases hf : fails i = true
    · simp [loopStep, hf]
    · have hf' : fails i = false := Bool.eq_false_iff.mpr hf
      by_cases he : (st.rows.any fun r => orKeyMatch sid j r) = true <;>
        simp [loopStep, hf', he] <;> omega

/-- With exactly one failing index inside the batch, the successful writes
number one less than the batch. -/
theorem okCount_single (k : Nat) :
    ∀ (js : List Job) (i : Nat),
      okCount (fun m => m == k) i js =
        js.length - (if i ≤ k ∧ k < i + js.length then 1 else 0) := by
  intro js
  induction js with
  | nil =>
    intro i
    simp [okCount]
  | cons j t ih =>
    intro i
    rw [okCount, ih (i + 1)]
    by_cases hik : i = k
    · have : (i == k) = true := by rw [hik]; exact beq_self_eq_true k
      rw [this]
      simp only [if_true, List.length_cons]
      split_ifs <;> omega
    · have : (i == k) = false := by
        rw [Bool.eq_false_iff]
        simpa using hik
      rw [this]
      simp only [Bool.false_eq_true, if_false, List.length_cons]
      split_ifs <;> omega

/-- A url is in the run's seen set iff some listing with that url had a
successful store write. -/
theorem runLoopAux_seen (sid : Nat) (name : String) (fails : Nat → Bool) :
    ∀ (js : List Job) (i : Nat) (st : LoopState) (u : String),
      u ∈ (runLoopAux sid name fails i st js).seen ↔
        u ∈ st.seen ∨
          ∃ k j, js[k]? = some j ∧ fails (i + k) = false ∧ j.url = u := by
  intro js
  induction js with
  | nil =>
    intro i st u
    simp [runLoopAux]
  | cons j t ih =>
    intro i st u
    rw [runLoopAux, ih (i + 1)]
    by_cases hf : fails i = true
    · have hstep : (loopStep sid name fails st i j).seen = st.seen := by
        simp [loopStep, hf]
      rw [hstep]
      constructor
      · rintro (h | ⟨k, j', hk, hfk, hu⟩)
        · exact Or.inl h
        · refine Or.inr ⟨k + 1, j', by simpa using hk, ?_, hu⟩
          rw [show i + (k + 1) = i + 1 + k by omega]
          exact hfk
      · rintro (h | ⟨k, j', hk, hfk, hu⟩)
        · exact Or.inl h
        · cases k with
          | zero =>
            rw [Nat.add_zero] at hfk
            rw [hfk] at hf
            cases hf
          | succ k =>
            refine Or.inr ⟨k, j', by simpa using hk, ?_, hu⟩
            rw [show i + 1 + k = i + (k + 1) by omega]
            exact hfk
    · have hf' : fails i = false := Bool.eq_false_iff.mpr hf
      have hstep : (loopStep sid name fails st i j).seen = st.seen ++ [j.url] := by
        simp [loopStep, hf']
      rw [hstep]
      simp only [List.mem_append, List.mem_singleton]
      constructor
      · rintro ((h | h) | ⟨k, j', hk, hfk, hu⟩)
        · exact Or.inl h
        · exact Or.inr ⟨0, j, by simp, by rwa [Nat.add_zero], h.symm⟩
        · refine Or.inr ⟨k + 1, j', by simpa using hk, ?_, hu⟩
          rw [show i + (k + 1) = i + 1 + k by omega]
          exact hfk
      · rintro (h | ⟨k, j', hk, hfk, hu⟩)
        · exact Or.inl (Or.inl h)
        · cases k with
          | zero =>
            have hjj : j = j' := by simpa using hk
            subst hjj
            exact Or.inl (Or.inr hu.symm)
          | succ k =>
            refine Or.inr ⟨k, j', by simpa using hk, ?_, hu⟩
            rw [show i + 1 + k = i + (k + 1) by omega]
            exact hfk

/-- Path reduction: missing source. -/
theorem crawlSource_notFound (db : DB) (sources : List SourceRow)
    (adapter : String → String → AdapterResult) (now : Int) (fails : Nat → Bool)
    (sid : Nat) (maxAge : Option Nat)
    (hfind : sources.find? (fun s => s.id == sid) = none) :
    crawlSource db sources adapter now fails sid maxAge =
      ({ db with runs := db.runs ++ [startedRun db.nextRunId sid],
                 nextRunId := db.nextRunId + 1 },
       { status := "failed", message := some "Source not found" }) := by
  simp only [crawlSource, hfind]

/-- Path reduction: unknown scraper type. -/
theorem crawlSource_unknownType (db : DB) (sources : List SourceRow)
    (adapter : String → String → AdapterResult) (now : Int) (fails : Nat → Bool)
    (sid : Nat) (maxAge : Option Nat) (src : SourceRow)
    (hfind : sources.find? (fun s => s.id == sid) = some src)
    (hvalid : validScraperType src.scraper_type = false) :
    crawlSource db sources adapter now fails sid maxAge =
      ({ db with runs := db.runs ++ [startedRun db.nextRunId sid],
                 nextRunId := db.nextRunId + 1 },
       { status := "failed",
         message := some ("Unknown scraper type: " ++ src.scraper_type) }) := by
  simp only [crawlSource, hfind, hvalid, Bool.not_false, if_true]

/-- Path reduction: the dispatched adapter raises. -/
theorem crawlSource_adapterRaise (db : DB) (sources : List SourceRow)
    (adapter : String → String → AdapterResult) (now : Int) (fails : Nat → Bool)
    (sid : Nat) (maxAge : Option Nat) (src : SourceRow) (msg : String)
    (hfind : sources.find? (fun s => s.id == sid) = some src)
    (hvalid : validScraperType src.scraper_type = true)
    (hadapter : adapter src.scraper_type src.url = .raise msg) :
    crawlSource db sources adapter now fails sid maxAge =
      ({ db with runs := db.runs ++ [startedRun db.nextRunId sid],
                 nextRunId := db.nextRunId + 1 },
       { status := "failed", error := some msg }) := by
  simp only [crawlSource, hfind, hvalid, hadapter, Bool.not_true,
    Bool.false_eq_true, if_false]

/-- Path reduction: the success path, in terms of the filter stages, the
per-listing loop, the sweep and the run-row update. -/
theorem crawlSource_success (db : DB) (sources : List SourceRow)
    (adapter : String → String → AdapterResult) (now : Int) (fails : Nat → Bool)
    (sid : Nat) (maxAge : Option Nat) (src : SourceRow) (jobs0 : List Job)
    (hfind : sources.find? (fun s => s.id == sid) = some src)
    (hvalid : validScraperType src.scraper_type = true)
    (hadapter : adapter src.scraper_type src.url = .ok jobs0) :
    crawlSource db sources adapter now fails sid maxAge =
      (let jobs := filterByDepartment src.target_departments
         (filterByAge maxAge now jobs0)
       let st := runLoop sid src.name fails db.jobs db.nextJobId jobs
       ({ jobs := sweepDeactivate sid st.seen st.rows,
          runs := updateRun db.nextRunId jobs.length st.newCount st.updatedCount
            (db.runs ++ [startedRun db.nextRunId sid]),
          nextJobId := st.nextId, nextRunId := db.nextRunId + 1 },
        { status := "success", source_id := some sid,
          jobs_found := some jobs.length, jobs_new := some st.newCount,
          jobs_updated := some st.updatedCount })) := by
  simp only [crawlSource, hfind, hvalid, hadapter, Bool.not_true,
    Bool.false_eq_true, if_false]

/-- C5: when storing the `k`-th listing of a filtered batch raises a
storage error, the loop continues: the crawl still returns a success result
with `jobs_found` the full batch size and `jobs_new + jobs_updated` one
less, and every other listing's url reaches the run's seen set. -/
theorem partial_batch_resilience (db : DB) (sources : List SourceRow)
    (adapter : String → String → AdapterResult) (now : Int) (sid k : Nat)
    (src : SourceRow) (js : List Job)
    (hfind : sources.find? (fun s => s.id == sid) = some src)
    (hvalid : validScraperType src.scraper_type = true)
    (hadapter : adapter src.scraper_type src.url = .ok js)
    (htargets : src.target_departments = [])
    (hk : k < js.length) :
    (crawlSource db sources adapter now (fun m => m == k) sid none).2.status
        = "success" ∧
    (crawlSource db sources adapter now (fun m => m == k) sid none).2.jobs_found
        = some js.length ∧
    (∃ nc uc,
      (crawlSource db sources adapter now (fun m => m == k) sid none).2.jobs_new
          = some nc ∧
      (crawlSource db sources adapter now (fun m => m == k) sid none).2.jobs_updated
          = some uc ∧
      nc + uc = js.length - 1) ∧
    (∀ i, ∀ hi : i < js.length, i ≠ k →
      (js.get ⟨i, hi⟩).url ∈
        (runLoop sid src.name (fun m => m == k) db.jobs db.nextJobId js).seen) := by
  have hred := crawlSource_success db sources adapter now (fun m => m == k) sid none
    src js hfind hvalid hadapter
  have hjobs : filterByDepartment src.target_departments (filterByAge none now js)
      = js := by
    rw [htargets]
    rfl
  rw [hjobs] at hred
  refine ⟨by rw [hred], by rw [hred], ?_, ?_⟩
  · refine ⟨(runLoop sid src.name (fun m => m == k) db.jobs db.nextJobId js).newCount,
      (runLoop sid src.name (fun m => m == k) db.jobs db.nextJobId js).updatedCount,
      by rw [hred], by rw [hred], ?_⟩
    have hc := runLoopAux_counts sid src.name (fun m => m == k) js 0
      { rows := db.jobs, nextId := db.nextJobId, seen := [], newCount := 0,
        updatedCount := 0 }
    have ho := okCount_single k js 0
    rw [if_pos ⟨Nat.zero_le k, by omega⟩] at ho
    unfold runLoop
    rw [hc, ho]
    simp
  · intro i hi hik
    rw [runLoop, runLoopAux_seen]
    refine Or.inr ⟨i, js.get ⟨i, hi⟩, ?_, ?_, rfl⟩
    · simp
    · rw [Nat.zero_add, Bool.eq_false_iff]
      simpa using hik

/-- C5 witness: a concrete two-listing batch whose first store write fails
still succeeds with `jobs_found = 2`, `jobs_new + jobs_updated = 1`, and
the second listing's url in the seen set. -/
theorem partial_batch_resilience_witness :
    (crawlSource emptyDB [demoSource]
        (fun _ _ => .ok [engJob, salesJob]) 0 (fun m => m == 0) 1 none).2.status
      = "success" ∧
    (crawlSource emptyDB [demoSource]
        (fun _ _ => .ok [engJob, salesJob]) 0 (fun m => m == 0) 1 none).2.jobs_found
      = some 2 ∧
    salesJob.url ∈
      (runLoop 1 demoSource.name (fun m => m == 0) emptyDB.jobs emptyDB.nextJobId
        [engJob, salesJob]).seen := by
  have h := partial_batch_resilience emptyDB [demoSource]
    (fun _ _ => .ok [engJob, salesJob]) 0 1 0 demoSource [engJob, salesJob]
    (by decide) (by decide) rfl (by decide) (by decide)
  exact ⟨h.1, h.2.1, h.2.2.2 1 (by decide) (by decide)⟩

/-- C6 counterexample: a crawl that returns the structured configuration
failure "Source not found" — no exception escapes — leaves its run row at
the non-terminal status "started", with no counts and no completion
timestamp, contradicting the claim that such a crawl still brings the row
to a terminal state. -/
theorem run_tracker_claim_counterexample :
    (crawlSource emptyDB [] (fun _ _ => .ok []) 0 (fun _ => false) 1 none).2.status
        = "failed" ∧
      (crawlSource emptyDB [] (fun _ _ => .ok []) 0 (fun _ => false) 1 none).2.message
        = some "Source not found" ∧
      (crawlSource emptyDB [] (fun _ _ => .ok []) 0 (fun _ => false) 1 none).1.runs
        = [startedRun 1 1] ∧
      (startedRun 1 1).status = "started" ∧
      (startedRun 1 1).completed = false :=
  ⟨rfl, rfl, rfl, rfl, rfl⟩

/-- Marking the fresh run row completed touches no pre-existing run row. -/
theorem updateRun_append_fresh (rid found nc uc sid : Nat) (runs : List RunRow)
    (hfresh : ∀ r ∈ runs, r.id ≠ rid) :
    updateRun rid found nc uc (runs ++ [startedRun rid sid]) =
      runs ++ [{ id := rid, source_id := sid, status := "completed",
                 jobs_found := some found, jobs_new := some nc,
                 jobs_updated := some uc, completed := true }] := by
  unfold updateRun
  rw [List.map_append]
  congr 1
  · conv_rhs => rw [← List.map_id runs]
    apply List.map_congr_left
    intro r hr
    have : ¬((r.id == rid) = true) := by simpa using hfresh r hr
    rw [if_neg this]
    rfl
  · simp [startedRun]

/-- C6 (amended): every invocation creates the run row with status
"started" before adapter dispatch; the row is mutated — exactly once, to
"completed" with the final counts and completion timestamp — only on the
path that completes reconciliation, and is left non-terminal both when an
exception is caught at the orchestrator boundary (a raising adapter) and
when the crawl returns a structured configuration failure (source not
found, unknown scraper type). -/
theorem run_tracker_lifecycle (db : DB) (sources : List SourceRow)
    (adapter : String → String → AdapterResult) (now : Int) (fails : Nat → Bool)
    (sid : Nat) (maxAge : Option Nat)
    (hfresh : ∀ r ∈ db.runs, r.id ≠ db.nextRunId) :
    (sources.find? (fun s => s.id == sid) = none →
      (crawlSource db sources adapter now fails sid maxAge).1.runs
        = db.runs ++ [startedRun db.nextRunId sid] ∧
      (crawlSource db sources adapter now fails sid maxAge).2.status = "failed") ∧
    (∀ src, sources.find? (fun s => s.id == sid) = some src →
      validScraperType src.scraper_type = false →
      (crawlSource db sources adapter now fails sid maxAge).1.runs
        = db.runs ++ [startedRun db.nextRunId sid] ∧
      (crawlSource db sources adapter now fails sid maxAge).2.status = "failed") ∧
    (∀ src msg, sources.find? (fun s => s.id == sid) = some src →
      validScraperType src.scraper_type = true →
      adapter src.scraper_type src.url = .raise msg →
      (crawlSource db sources adapter now fails sid maxAge).1.runs
        = db.runs ++ [startedRun db.nextRunId sid] ∧
      (crawlSource db sources adapter now fails sid maxAge).2.status = "failed") ∧
    (∀ src jobs0, sources.find? (fun s => s.id == sid) = some src →
      validScraperType src.scraper_type = true →
      adapter src.scraper_type src.url = .ok jobs0 →
      (crawlSource db sources adapter now fails sid maxAge).2.status = "success" ∧
      (crawlSource db sources adapter now fails sid maxAge).1.runs
        = db.runs ++
          [{ id := db.nextRunId, source_id := sid, status := "completed",
             jobs_found :=
                 (crawlSource db sources adapter now fails sid maxAge).2.jobs_found,
             jobs_new :=
                 (crawlSource db sources adapter now fails sid maxAge).2.jobs_new,
             jobs_updated :=
                 (crawlSource db sources adapter now fails sid maxAge).2.jobs_updated,
             completed := true }]) := by
  refine ⟨?_, ?_, ?_, ?_⟩
  · intro hfind
    rw [crawlSource_notFound db sources adapter now fails sid maxAge hfind]
    exact ⟨rfl, rfl⟩
  · intro src hfind hvalid
    rw [crawlSource_unknownType db sources adapter now fails sid maxAge src hfind hvalid]
    exact ⟨rfl, rfl⟩
  · intro src msg hfind hvalid hadapter
    rw [crawlSource_adapterRaise db sources adapter now fails sid maxAge src msg
      hfind hvalid hadapter]
    exact ⟨rfl, rfl⟩
  · intro src jobs0 hfind hvalid hadapter
    rw [crawlSource_success db sources adapter now fails sid maxAge src jobs0
      hfind hvalid hadapter]
    refine ⟨rfl, ?_⟩
    exact updateRun_append_fresh db.nextRunId _ _ _ sid db.runs hfresh

/-- C6 witness: on a successful concrete crawl the single run row ends
"completed" with zero counts; on a concrete missing source it stays
"started". -/
theorem run_tracker_lifecycle_witness :
    (crawlSource emptyDB [demoSource] (fun _ _ => .ok []) 0 (fun _ => false)
        1 none).1.runs
      = [{ id := 1, source_id := 1, status := "completed", jobs_found := some 0,
           jobs_new := some 0, jobs_updated := some 0, completed := true }] ∧
    (crawlSource emptyDB [] (fun _ _ => .ok []) 0 (fun _ => false) 1 none).1.runs
      = [startedRun 1 1] := by
  have h := run_tracker_lifecycle emptyDB [demoSource] (fun _ _ => .ok []) 0
    (fun _ => false) 1 none (by simp [emptyDB])
  have h2 := run_tracker_lifecycle emptyDB [] (fun _ _ => .ok []) 0
    (fun _ => false) 1 none (by simp [emptyDB])
  refine ⟨?_, (h2.1 (by decide)).1⟩
  have hc := (h.2.2.2 demoSource [] (by decide) (by decide) rfl).2
  rw [hc]
  decide

/-- C10: a url enters the run's seen set only through a successful store
write (first conjunct, for any loop input); consequently, when the only
write for a previously active row's url fails, the deactivation sweep sets
that row `is_active = false` even though the posting was present in the
crawl batch (second conjunct: a one-listing batch whose write raises). -/
theorem failed_write_deactivates (name : String) (fails : Nat → Bool)
    (rows : List Row) (nid : Nat) (js : List Job) (u : String) (db : DB)
    (sources : List SourceRow) (adapter : String → String → AdapterResult)
    (now : Int) (sid : Nat) (src : SourceRow) (j : Job) (r : Row)
    (hfind : sources.find? (fun s => s.id == sid) = some src)
    (hvalid : validScraperType src.scraper_type = true)
    (hadapter : adapter src.scraper_type src.url = .ok [j])
    (htargets : src.target_departments = [])
    (hr : r ∈ db.jobs) (hact : r.is_active = true) (hsrc : r.source_id = sid)
    (_hurl : r.url = j.url) (hnd : (db.jobs.map Row.id).Nodup) :
    (u ∈ (runLoop sid name fails rows nid js).seen ↔
      ∃ k j', js[k]? = some j' ∧ fails k = false ∧ j'.url = u) ∧
    ∃ r', r' ∈ (crawlSource db sources adapter now (fun _ => true) sid
        none).1.jobs ∧
      r'.id = r.id ∧ r'.is_active = false := by
  constructor
  · rw [runLoop, runLoopAux_seen]
    simp
  · have hred := crawlSource_success db sources adapter now (fun _ => true) sid
      none src [j] hfind hvalid hadapter
    have hjobs : filterByDepartment src.target_departments
        (filterByAge none now [j]) = [j] := by
      rw [htargets]
      rfl
    rw [hjobs] at hred
    refine ⟨{ r with is_active := false }, ?_, rfl, rfl⟩
    rw [hred]
    show { r with is_active := false } ∈ sweepDeactivate sid [] db.jobs
    rw [sweepDeactivate_eq_map sid [] db.jobs hnd]
    refine List.mem_map.mpr ⟨r, hr, ?_⟩
    have hcond : (r.source_id == sid && r.is_active &&
        !(List.contains ([] : List String) r.url)) = true := by
      rw [hact, hsrc]
      simp
    rw [if_pos hcond]

/-- C10 witness: with the stored active row `cexRow` and a one-listing batch
with the same url whose store write raises, the crawl leaves that row
retired. -/
theorem failed_write_deactivates_witness :
    ∃ r', r' ∈ (crawlSource cexDB [demoSource] (fun _ _ => .ok [cexJob]) 0
        (fun _ => true) 1 none).1.jobs ∧
      r'.id = cexRow.id ∧ r'.is_active = false :=
  (failed_write_deactivates "Acme" (fun _ => true) [] 1 [cexJob] "u" cexDB
    [demoSource] (fun _ _ => .ok [cexJob]) 0 1 demoSource cexJob cexRow
    (by decide) (by decide) rfl (by decide) (by decide) (by decide) (by decide)
    (by decide) (by decide)).2

/-- A row of another source never matches the OR existence check. -/
theorem orKeyMatch_false_of_src {sid : Nat} {j : Job} {r : Row}
    (h : r.source_id ≠ sid) : orKeyMatch sid j r = false := by
  unfold orKeyMatch
  rw [show (r.source_id == sid) = false from by simpa using h, Bool.false_and]

/-- A row of another source never matches the natural key. -/
theorem natKeyMatch_false_of_src {sid : Nat} {j : Job} {r : Row}
    (h : r.source_id ≠ sid) : natKeyMatch sid j r = false := by
  unfold natKeyMatch
  rw [show (r.source_id == sid) = false from by simpa using h, Bool.false_and]

/-- No OR-key match among rows of other sources. -/
theorem any_orKey_false {sid : Nat} {j : Job} {l : List Row}
    (h : ∀ r ∈ l, r.source_id ≠ sid) : l.any (orKeyMatch sid j) = false :=
  List.any_eq_false.mpr fun r hr => by
    rw [orKeyMatch_false_of_src (h r hr)]
    simp

/-- No natural-key match among rows of other sources. -/
theorem any_natKey_false {sid : Nat} {j : Job} {l : List Row}
    (h : ∀ r ∈ l, r.source_id ≠ sid) : l.any (natKeyMatch sid j) = false :=
  List.any_eq_false.mpr fun r hr => by
    rw [natKeyMatch_false_of_src (h r hr)]
    simp

/-- Natural-key update walks unchanged past a prefix with no match. -/
theorem updateMatching_append_no_match (sid : Nat) (j : Job) {l1 : List Row}
    (l2 : List Row) (h : ∀ r ∈ l1, natKeyMatch sid j r = false) :
    updateMatching sid j (l1 ++ l2) = l1 ++ updateMatching sid j l2 := by
  induction l1 with
  | nil => simp
  | cons r rs ih =>
    rw [List.cons_append, updateMatching]
    have hneg : ¬(natKeyMatch sid j r = true) := by
      rw [h r (List.mem_cons_self r rs)]
      simp
    rw [if_neg hneg, ih fun x hx => h x (List.mem_cons_of_mem r hx),
      List.cons_append]

/-- A sweep whose seen set covers the single active row of the crawled
source changes nothing. -/
theorem sweep_single_seen (sid : Nat) (u : String) (l : List Row) (a : Row)
    (hl : ∀ r ∈ l, r.source_id ≠ sid) (ha_src : a.source_id = sid)
    (ha_act : a.is_active = true) (ha_url : a.url = u) :
    sweepDeactivate sid [u] (l ++ [a]) = l ++ [a] := by
  unfold sweepDeactivate
  have hfil : ((l ++ [a]).filter fun r => r.source_id == sid && r.is_active)
      = [a] := by
    rw [List.filter_append]
    rw [List.filter_eq_nil_iff.mpr fun r hr => by
      rw [show (r.source_id == sid) = false from by simpa using hl r hr]
      simp]
    rw [List.nil_append]
    simp [ha_src, ha_act]
  rw [hfil, sweepLoop_eq_map]
  have hc : List.contains [u] a.url = true := by
    rw [ha_url]
    simp
  conv_rhs => rw [← List.map_id (l ++ [a])]
  apply List.map_congr_left
  intro r _
  have hany : ([a].any fun x => x.id == r.id && !List.contains [u] x.url)
      = false := by
    simp only [List.any_cons, List.any_nil, Bool.or_false]
    rw [hc]
    simp
  rw [hany]
  simp

/-- A one-listing crawl with no store failure, in terms of the upsert, the
sweep and the OR existence check. -/
theorem crawlSource_single_job (db : DB) (sources : List SourceRow)
    (adapter : String → String → AdapterResult) (now : Int) (sid : Nat)
    (src : SourceRow) (j : Job)
    (hfind : sources.find? (fun s => s.id == sid) = some src)
    (hvalid : validScraperType src.scraper_type = true)
    (hadapter : adapter src.scraper_type src.url = .ok [j])
    (htargets : src.target_departments = []) :
    (crawlSource db sources adapter now (fun _ => false) sid none).1.jobs
        = sweepDeactivate sid [j.url]
            (upsertJob sid src.name db.nextJobId db.jobs j).1 ∧
      (crawlSource db sources adapter now (fun _ => false) sid none).2.jobs_new
        = some (if db.jobs.any (orKeyMatch sid j) then 0 else 1) ∧
      (crawlSource db sources adapter now (fun _ => false) sid
          none).2.jobs_updated
        = some (if db.jobs.any (orKeyMatch sid j) then 1 else 0) := by
  have hred := crawlSource_success db sources adapter now (fun _ => false) sid
    none src [j] hfind hvalid hadapter
  have hjobs : filterByDepartment src.target_departments
      (filterByAge none now [j]) = [j] := by
    rw [htargets]
    rfl
  rw [hjobs] at hred
  refine ⟨?_, ?_, ?_⟩ <;> rw [hred] <;> rfl

/-- C2 counterexample: the stored row carries external id "A"; the incoming
listing carries the different, non-empty external id "B" and the same url.
No row matches the claim's natural key (source_id, external_id "B") — yet
the crawl classifies the listing as updated (jobs_updated = 1, jobs_new =
0), because the existence check is
`external_id = :external_id OR url = :url`, not the natural-key fallback. -/
theorem reconcile_lookup_claim_counterexample :
    cexDB.jobs.all (fun r => !natKeyMatch 1 cexJob r) = true ∧
      (crawlSource cexDB [demoSource] (fun _ _ => .ok [cexJob]) 0
          (fun _ => false) 1 none).2.jobs_updated = some 1 ∧
      (crawlSource cexDB [demoSource] (fun _ _ => .ok [cexJob]) 0
          (fun _ => false) 1 none).2.jobs_new = some 0 :=
  ⟨by decide, by decide, by decide⟩

/-- C2 (amended): the reconciliation lookup uses OR semantics — a listing
is classified as updated exactly when, at its loop iteration, some row of
the same source has `external_id` equal to the listing's external id (with
absent mapped to the empty string) *or* `url` equal to the listing's url,
and as new otherwise; two listings from the same source with the same url
and no (or empty) external id still collapse to a single row across two
crawls: the second crawl updates (jobs_updated = 1, jobs_new = 0) and does
not duplicate. -/
theorem reconcile_or_lookup_and_collapse :
    (∀ (sid : Nat) (name : String) (fails : Nat → Bool) (st : LoopState)
        (i : Nat) (j : Job), fails i = false →
      (((loopStep sid name fails st i j).updatedCount = st.updatedCount + 1 ↔
          st.rows.any (orKeyMatch sid j) = true) ∧
        ((loopStep sid name fails st i j).newCount = st.newCount + 1 ↔
          ¬st.rows.any (orKeyMatch sid j) = true))) ∧
    (∀ (db : DB) (sources : List SourceRow)
        (adapter : String → String → AdapterResult) (now : Int) (sid : Nat)
        (src : SourceRow) (j : Job),
      sources.find? (fun s => s.id == sid) = some src →
      validScraperType src.scraper_type = true →
      adapter src.scraper_type src.url = .ok [j] →
      src.target_departments = [] →
      j.external_id = none ∨ j.external_id = some "" →
      (∀ r ∈ db.jobs, r.source_id ≠ sid) →
      (((crawlSource
            (crawlSource db sources adapter now (fun _ => false) sid none).1
            sources adapter now (fun _ => false) sid
            none).1.jobs.filter fun r => r.source_id == sid).length = 1 ∧
        (crawlSource
            (crawlSource db sources adapter now (fun _ => false) sid none).1
            sources adapter now (fun _ => false) sid none).2.jobs_new
          = some 0 ∧
        (crawlSource
            (crawlSource db sources adapter now (fun _ => false) sid none).1
            sources adapter now (fun _ => false) sid none).2.jobs_updated
          = some 1)) := by
  constructor
  · intro sid name fails st i j hok
    have hstep : loopStep sid name fails st i j =
        { rows := (upsertJob sid name st.nextId st.rows j).1,
          nextId := (upsertJob sid name st.nextId st.rows j).2,
          seen := st.seen ++ [j.url],
          newCount := if st.rows.any (orKeyMatch sid j) then st.newCount
            else st.newCount + 1,
          updatedCount := if st.rows.any (orKeyMatch sid j) then
            st.updatedCount + 1 else st.updatedCount } := by
      unfold loopStep
      rw [hok]
      simp
    rw [hstep]
    by_cases he : st.rows.any (orKeyMatch sid j) = true <;>
      constructor <;> simp [he]
  · intro db sources adapter now sid src j hfind hvalid hadapter htargets hext
      hnos
    obtain ⟨h1jobs, _, _⟩ := crawlSource_single_job db sources adapter now sid
      src j hfind hvalid hadapter htargets
    have hup1 : (upsertJob sid src.name db.nextJobId db.jobs j).1
        = db.jobs ++ [newRow db.nextJobId sid src.name j] := by
      unfold upsertJob
      rw [if_neg (by rw [any_natKey_false hnos]; simp)]
    have hnew_src : (newRow db.nextJobId sid src.name j).source_id = sid := rfl
    have hnew_act : (newRow db.nextJobId sid src.name j).is_active = true := rfl
    have hnew_url : (newRow db.nextJobId sid src.name j).url = j.url := rfl
    rw [hup1, sweep_single_seen sid j.url db.jobs _ hnos hnew_src hnew_act
      hnew_url] at h1jobs
    -- the second crawl
    obtain ⟨h2jobs, h2new, h2upd⟩ := crawlSource_single_job
      (crawlSource db sources adapter now (fun _ => false) sid none).1 sources
      adapter now sid src j hfind hvalid hadapter htargets
    set db1 := (crawlSource db sources adapter now (fun _ => false) sid none).1
      with hdb1
    have hornew : orKeyMatch sid j (newRow db.nextJobId sid src.name j)
        = true := by
      rcases hext with h | h <;>
        simp [orKeyMatch, newRow, extParam, h]
    have hnatnew : natKeyMatch sid j (newRow db.nextJobId sid src.name j)
        = true := by
      rcases hext with h | h <;>
        simp [natKeyMatch, newRow, h]
    have hor1 : db1.jobs.any (orKeyMatch sid j) = true := by
      rw [h1jobs, List.any_append]
      rw [any_orKey_false hnos]
      simp [hornew]
    have hup2 : (upsertJob sid src.name db1.nextJobId db1.jobs j).1
        = db.jobs ++ [applyUpdate j (newRow db.nextJobId sid src.name j)] := by
      unfold upsertJob
      rw [if_pos (by
        rw [h1jobs, List.any_append, any_natKey_false hnos]
        simp [hnatnew])]
      rw [h1jobs, updateMatching_append_no_match sid j _
        fun r hr => natKeyMatch_false_of_src (hnos r hr)]
      rw [updateMatching, if_pos hnatnew]
    have hupd_src : (applyUpdate j (newRow db.nextJobId sid src.name j)).source_id
        = sid := rfl
    have hupd_act : (applyUpdate j (newRow db.nextJobId sid src.name j)).is_active
        = true := rfl
    have hupd_url : (applyUpdate j (newRow db.nextJobId sid src.name j)).url
        = j.url := rfl
    rw [hup2, sweep_single_seen sid j.url db.jobs _ hnos hupd_src hupd_act
      hupd_url] at h2jobs
    refine ⟨?_, ?_, ?_⟩
    · rw [h2jobs, List.filter_append]
      rw [List.filter_eq_nil_iff.mpr fun r hr => by
        rw [show (r.source_id == sid) = false from by simpa using hnos r hr]
        simp]
      simp [hupd_src]
    · rw [h2new, hor1]
      simp
    · rw [h2upd, hor1]
      simp

/-- C2 witness: starting from the empty store, crawling the same
no-external-id listing twice against source 1 ends with exactly one row for
that source, the second crawl reporting one update and no insert. -/
theorem reconcile_or_lookup_and_collapse_witness :
    ((crawlSource
        (crawlSource emptyDB [demoSource] (fun _ _ => .ok [noExtJob]) 0
          (fun _ => false) 1 none).1
        [demoSource] (fun _ _ => .ok [noExtJob]) 0 (fun _ => false) 1
        none).1.jobs.filter fun r => r.source_id == 1).length = 1 ∧
    (crawlSource
        (crawlSource emptyDB [demoSource] (fun _ _ => .ok [noExtJob]) 0
          (fun _ => false) 1 none).1
        [demoSource] (fun _ _ => .ok [noExtJob]) 0 (fun _ => false) 1
        none).2.jobs_new = some 0 ∧
    (crawlSource
        (crawlSource emptyDB [demoSource] (fun _ _ => .ok [noExtJob]) 0
          (fun _ => false) 1 none).1
        [demoSource] (fun _ _ => .ok [noExtJob]) 0 (fun _ => false) 1
        none).2.jobs_updated = some 1 :=
  reconcile_or_lookup_and_collapse.2 emptyDB [demoSource]
    (fun _ _ => .ok [noExtJob]) 0 1 demoSource noExtJob (by decide) (by decide)
    rfl (by decide) (Or.inl (by decide)) (by simp [emptyDB])

end JobSync
